import Mathlib

/-!
# Verification of the Secvest integration core

Shallow embedding of `custom_components/secvest` (REST client retry loop,
zone/status model, polling coordinator with circuit breaker, and the
set-mode command handler), with theorems checking the published
specification's claims against the code.

Python `dict`s that the code iterates over are embedded as association
lists with Python-dict semantics (insertion order preserved; writing to an
existing key replaces the value in place, keeping its position).
`time.time()` is embedded as a `Nat` number of seconds supplied to each
operation.  Network I/O is embedded by passing the outcome of each HTTP
operation as an explicit argument and recording the calls made in a trace.
-/

deriving instance DecidableEq for Except

namespace Secvest

/-- Minimal JSON value model for raw device payloads. -/
inductive JsonV where
  | str (s : String)
  | num (n : Int)
  | jbool (b : Bool)
  | null
  | arr (xs : List JsonV)
  | obj (fields : List (String × JsonV))

/-- Python `d.get(k)` on a JSON object's field list (keys of a Python dict are unique,
so first-match lookup is exact). -/
def jsonLookup : List (String × JsonV) → String → Option JsonV
  | [], _ => none
  | (k, v) :: rest, key => if k = key then some v else jsonLookup rest key

/-- The `isinstance(x, str)` guard combined with extraction. -/
def getStr : Option JsonV → Option String
  | some (.str s) => some s
  | _ => none

/-! ## `const.py` -/

def STATE_TRANSLATIONS : List (String × String) :=
  [("set", "Scharf"), ("partset", "Teilscharf"), ("unset", "Unscharf")]

def VALID_MODES : List String := ["set", "partset", "unset"]

def DEFAULT_SCAN_INTERVAL : Nat := 30
def DEFAULT_ZONES_INTERVAL : Nat := 120
def DEFAULT_RETRIES : Nat := 4
def DEFAULT_BREAKER_THRESHOLD : Nat := 5
def DEFAULT_BREAKER_COOLDOWN : Nat := 300

/-! ## `coordinator.py`: pure helpers -/

/-- Python `str.replace(old, new)` for a single-character pattern: every
occurrence of `c` is replaced by `rep`, left to right.  (Each `.replace` in
the source uses a one-character pattern, so this is exact.) -/
def replaceChar (s : String) (c : Char) (rep : String) : String :=
  ⟨s.data.flatMap (fun ch => if ch = c then rep.data else [ch])⟩

/-- Embedding of `normalize_name` — the chained `str.replace` calls of the
source. -/
def normalizeName (name : String) : String :=
  replaceChar (replaceChar (replaceChar (replaceChar (replaceChar (replaceChar
    (replaceChar (replaceChar (replaceChar (replaceChar (replaceChar
      name '.' "_") ' ' "_") '-' "_") '/' "_") 'ä' "ae") 'Ä' "ae")
      'ö' "oe") 'Ö' "oe") 'ü' "ue") 'Ü' "ue") 'ß' "ss"

/-- Embedding of `make_spoken_zone_list`. -/
def makeSpokenZoneList (zones : List String) : String :=
  match zones with
  | [] => ""
  | [z] => "Ich konnte die Alarmanlage nicht aktivieren, bitte schließe: " ++ z ++ "."
  | zs =>
    let last := zs.getLastD ""
    let head := String.intercalate ", " zs.dropLast
    "Ich konnte die Alarmanlage nicht aktivieren, bitte folgende Fenster und Türen schließen: "
      ++ head ++ " und " ++ last ++ "."

/-- One enriched zone record, as stored by `build_zones_dict`
(`{"name": raw_name, "friendly_name": friendly, "state": state}`; all three
fields are always strings by construction, so the record is typed). -/
structure ZoneRec where
  name : String
  friendly_name : String
  state : String
deriving DecidableEq, Repr

/-- Python `a or b` on an optional string: `None` and `""` are falsy. -/
def pyOrStr (a : Option String) (b : String) : String :=
  match a with
  | some s => if s = "" then b else s
  | none => b

/-- Python truthiness filter for an optional string. -/
def pyTruthy : Option String → Option String
  | some "" => none
  | some s => some s
  | none => none

/-- Python `out[key] = value` on a dict embedded as an association list:
replace in place if the key exists, else append. -/
def dictInsert (d : List (String × ZoneRec)) (key : String) (v : ZoneRec) :
    List (String × ZoneRec) :=
  if d.any (fun p => p.1 = key) then
    d.map (fun p => if p.1 = key then (key, v) else p)
  else
    d ++ [(key, v)]

/-- Friendly-name resolution of `build_zones_dict`:
`zone_name_map.get(key) or zone_name_map.get(raw_name)`, falling back to
`key.replace("_", " ")` when both are falsy. -/
def resolveFriendly (zoneNameMap : List (String × String)) (key rawName : String) :
    String :=
  match pyTruthy (zoneNameMap.lookup key) with
  | some f => f
  | none =>
    match pyTruthy (zoneNameMap.lookup rawName) with
    | some f => f
    | none => replaceChar key '_' " "

/-- Validation and enrichment of one raw entry of `build_zones_dict`:
non-dict entries and entries whose `name` or `state` is missing or not a
string yield `none`; otherwise the normalized key and the enriched record. -/
def validEntry (zoneNameMap : List (String × String)) (z : JsonV) :
    Option (String × ZoneRec) :=
  match z with
  | .obj fields =>
    match getStr (jsonLookup fields "name"), getStr (jsonLookup fields "state") with
    | some rawName, some state =>
      let key := normalizeName rawName
      let friendly := resolveFriendly zoneNameMap key rawName
      some (key, { name := rawName, friendly_name := friendly, state := state })
    | _, _ => none
  | _ => none

/-- Loop body of `build_zones_dict`: skip invalid entries, else
`out[key] = record`. -/
def buildZonesStep (zoneNameMap : List (String × String))
    (acc : List (String × ZoneRec)) (z : JsonV) : List (String × ZoneRec) :=
  match validEntry zoneNameMap z with
  | some (key, rec) => dictInsert acc key rec
  | none => acc

/-- Embedding of `build_zones_dict(zones_payload, zone_name_map)`. -/
def buildZonesDict (zonesPayload : List JsonV)
    (zoneNameMap : List (String × String)) : List (String × ZoneRec) :=
  zonesPayload.foldl (buildZonesStep zoneNameMap) []

/-! ## `coordinator.py`: snapshot -/

/-- Embedding of the `SecvestData` dataclass. -/
structure SecvestData where
  raw_mode : Option String
  human_mode : Option String
  zones : List (String × ZoneRec)
  open_zone_names : List String
  open_zones_csv : String
  open_zones_spoken : String
  available : Bool
  last_error : Option String
deriving DecidableEq, Repr

/-- The list comprehension of `_compose_data`: friendly names of zones whose
state is `"open"`, in zones-mapping iteration order (the `isinstance` guards
of the source always hold for typed `ZoneRec` values). -/
def openZoneNamesOf (zones : List (String × ZoneRec)) : List String :=
  (zones.map Prod.snd).filterMap
    (fun z => if z.state = "open" then some z.friendly_name else none)

/-- Embedding of `SecvestCoordinator._compose_data`. -/
def composeData (rawMode humanMode : Option String)
    (zones : List (String × ZoneRec)) (available : Bool)
    (lastError : Option String) : SecvestData :=
  let names := openZoneNamesOf zones
  { raw_mode := rawMode
    human_mode := humanMode
    zones := zones
    open_zone_names := names
    open_zones_csv := String.intercalate ", " names
    open_zones_spoken := makeSpokenZoneList names
    available := available
    last_error := lastError }

/-! ## `coordinator.py`: coordinator state -/

/-- The coordinator's instance attributes (`SecvestCoordinator.__init__`),
with `self.data` of the host's `DataUpdateCoordinator` base (set to the value
returned by `_async_update_data` or passed to `async_set_updated_data`). -/
structure CoordState where
  scanInterval : Nat
  zonesInterval : Nat
  breakerThreshold : Nat
  breakerCooldown : Nat
  zoneNameMap : List (String × String)
  zonesTick : Nat
  consecutiveFailures : Nat
  breakerUntil : Nat
  lastError : Option String
  data : Option SecvestData
deriving DecidableEq, Repr

/-- Embedding of `SecvestCoordinator.__init__`: the breaker threshold and cooldown
are clamped with `max(1, ...)` and `max(10, ...)`; counters start at zero. -/
def initCoordinator (scanInterval zonesInterval : Nat)
    (breakerThreshold breakerCooldown : Int)
    (zoneNameMap : List (String × String)) : CoordState :=
  { scanInterval := scanInterval
    zonesInterval := zonesInterval
    breakerThreshold := (max 1 breakerThreshold).toNat
    breakerCooldown := (max 10 breakerCooldown).toNat
    zoneNameMap := zoneNameMap
    zonesTick := 0
    consecutiveFailures := 0
    breakerUntil := 0
    lastError := none
    data := none }

/-- Exceptions a Device Client call can raise into the coordinator:
`asyncio.TimeoutError`, `SecvestApiError`, `aiohttp.ClientResponseError`
(status kept), or any other exception. -/
inductive PollErr where
  | timeout
  | apiError (msg : String)
  | httpError (status : Nat)
  | unexpected (msg : String)
deriving DecidableEq, Repr

/-- Embedding of Python `repr(err)` as stored in `self._last_error`. -/
def pollErrRepr : PollErr → String
  | .timeout => "TimeoutError()"
  | .apiError m => "SecvestApiError(" ++ m ++ ")"
  | .httpError s => "ClientResponseError(" ++ toString s ++ ")"
  | .unexpected m => m

/-- One Device Client call, as recorded in a trace. -/
inductive NetCall where
  | getMode
  | getZones
  | setMode (mode : String)
deriving DecidableEq, Repr

/-- Outcome of one scheduled tick: Device Client calls made, the coordinator
state afterwards, and either the returned snapshot or the `UpdateFailed`
message raised. -/
structure TickResult where
  calls : List NetCall
  state : CoordState
  result : Except String SecvestData
deriving DecidableEq, Repr

/-- The shared `except` logic of `_async_update_data`: bump the failure
counter, record `repr(err)`, open the breaker when the counter reaches the
threshold, then either degrade the previous snapshot or raise `UpdateFailed`.
(The handler for unanticipated exceptions differs only in logging.) -/
def degradedTick (st : CoordState) (now : Nat) (zonesTickAfter : Nat)
    (calls : List NetCall) (e : PollErr) : TickResult :=
  let failures := st.consecutiveFailures + 1
  let lastErr := pollErrRepr e
  let breakerUntil :=
    if st.breakerThreshold ≤ failures then now + st.breakerCooldown
    else st.breakerUntil
  let st1 := { st with zonesTick := zonesTickAfter
                       consecutiveFailures := failures
                       lastError := some lastErr
                       breakerUntil := breakerUntil }
  match st.data with
  | some d =>
    let snap := composeData d.raw_mode d.human_mode d.zones false (some lastErr)
    { calls := calls, state := { st1 with data := some snap }, result := .ok snap }
  | none =>
    { calls := calls, state := st1
      result := .error (pyOrStr (some lastErr) "Update failed") }

/-- The success tail of `_async_update_data`: reset failure counter, breaker
and last error, publish a fresh available snapshot. -/
def healthyTick (st : CoordState) (zonesTickAfter : Nat) (calls : List NetCall)
    (rawMode humanMode : String) (zones : List (String × ZoneRec)) : TickResult :=
  let snap := composeData (some rawMode) (some humanMode) zones true none
  { calls := calls
    state := { st with zonesTick := zonesTickAfter
                       consecutiveFailures := 0
                       breakerUntil := 0
                       lastError := none
                       data := some snap }
    result := .ok snap }

/-- Embedding of `SecvestCoordinator._async_update_data`.  Here `now` embeds
`time.time()`;
`modeResult` and `zonesResult` are the outcomes the Device Client would
produce for `get_mode()` and `get_zones()` on this tick. -/
def updateData (st : CoordState) (now : Nat)
    (modeResult : Except PollErr String)
    (zonesResult : Except PollErr (List JsonV)) : TickResult :=
  if now < st.breakerUntil then
    match st.data with
    | some d =>
      let snap := composeData d.raw_mode d.human_mode d.zones false
        (some (pyOrStr st.lastError "Circuit breaker active"))
      { calls := [], state := { st with data := some snap }, result := .ok snap }
    | none => { calls := [], state := st, result := .error "Circuit breaker active" }
  else
    match modeResult with
    | .error e => degradedTick st now st.zonesTick [.getMode] e
    | .ok rawMode =>
      let humanMode := (STATE_TRANSLATIONS.lookup rawMode).getD "Unbekannt"
      let tick1 := st.zonesTick + st.scanInterval
      let zones0 :=
        match st.data with
        | some d => d.zones
        | none => []
      if st.zonesInterval ≤ tick1 then
        match zonesResult with
        | .error e => degradedTick st now 0 [.getMode, .getZones] e
        | .ok payload =>
          healthyTick st 0 [.getMode, .getZones] rawMode humanMode
            (buildZonesDict payload st.zoneNameMap)
      else
        healthyTick st tick1 [.getMode] rawMode humanMode zones0

/-- Outcome of `async_refresh_zones_now`: on success the new state and the
snapshot published through `async_set_updated_data`; a `get_zones` failure
propagates to the caller before any state is touched. -/
structure RefreshResult where
  calls : List NetCall
  result : Except PollErr (CoordState × SecvestData)
deriving DecidableEq, Repr

/-- Embedding of `SecvestCoordinator.async_refresh_zones_now`. -/
def refreshZonesNow (st : CoordState)
    (zonesResult : Except PollErr (List JsonV)) : RefreshResult :=
  match zonesResult with
  | .error e => { calls := [.getZones], result := .error e }
  | .ok payload =>
    let zonesDict := buildZonesDict payload st.zoneNameMap
    let snap :=
      match st.data with
      | some d => composeData d.raw_mode d.human_mode zonesDict true d.last_error
      | none => composeData none none zonesDict true none
    let st1 := { st with lastError := none
                         consecutiveFailures := 0
                         breakerUntil := 0
                         data := some snap }
    { calls := [.getZones], result := .ok (st1, snap) }

/-! ## `__init__.py`: the `set_mode` service handler -/

/-- Error surfaced by the command handler: a `HomeAssistantError` it raises
itself, or an exception from the forced refresh / an uncaught exception type
propagating through it. -/
inductive CmdErr where
  | haError (msg : String)
  | propagated (e : PollErr)
deriving DecidableEq, Repr

/-- Outcome of one `handle_set_mode` service call. -/
structure CmdResult where
  calls : List NetCall
  state : CoordState
  result : Except CmdErr Unit
deriving DecidableEq, Repr

/-- Embedding of `handle_set_mode` in `__init__.py`: validate the mode, force a live zone
refresh, refuse to arm while any zone is open, else issue `set_mode` to the
Device Client, mapping its failures to user-facing errors.  (The trailing
`async_request_refresh()` only schedules a coordinator poll and is not a
direct Device Client call, so it is not part of the trace.) -/
def handleSetMode (st : CoordState) (mode : String)
    (zonesResult : Except PollErr (List JsonV))
    (setModeResult : Except PollErr Unit) : CmdResult :=
  if VALID_MODES.contains mode then
    let r := refreshZonesNow st zonesResult
    match r.result with
    | .error e => { calls := r.calls, state := st, result := .error (.propagated e) }
    | .ok (st1, _) =>
      match st1.data with
      | none =>
        { calls := r.calls, state := st1
          result := .error (.haError "Secvest status currently unknown.") }
      | some d =>
        if (mode == "set" || mode == "partset") && !d.open_zone_names.isEmpty then
          { calls := r.calls, state := st1
            result := .error (.haError (pyOrStr (some d.open_zones_spoken)
              "Offene Zonen verhindern Aktivierung.")) }
        else
          match setModeResult with
          | .ok _ =>
            { calls := r.calls ++ [.setMode mode], state := st1, result := .ok () }
          | .error .timeout =>
            { calls := r.calls ++ [.setMode mode], state := st1
              result := .error (.haError
                "Secvest antwortet nicht (Timeout). Bitte später erneut versuchen.") }
          | .error (.apiError m) =>
            { calls := r.calls ++ [.setMode mode], state := st1
              result := .error (.haError ("Secvest API Fehler: " ++ m)) }
          | .error (.httpError s) =>
            { calls := r.calls ++ [.setMode mode], state := st1
              result := .error (.haError ("Secvest HTTP Fehler: " ++ toString s)) }
          | .error (.unexpected m) =>
            { calls := r.calls ++ [.setMode mode], state := st1
              result := .error (.propagated (.unexpected m)) }
  else
    { calls := [], state := st, result := .error (.haError ("Invalid mode: " ++ mode)) }

/-! ## `api.py`: the retry/path-fallback request loop -/

/-- Python string slicing `s[:n]` (character-wise). -/
def pyTake (s : String) (n : Nat) : String := ⟨s.data.take n⟩

/-- One HTTP response: status, the stripped body's JSON parse (`none` when
the body is not valid JSON), and the stripped body text used in messages. -/
structure HttpResp where
  status : Nat
  bodyJson : Option JsonV
  bodyText : String

/-- Outcome of one `session.request(...)`: a response, or a transport
exception (`asyncio.TimeoutError`, `aiohttp.ClientConnectorError`,
`ServerDisconnectedError`, `ClientOSError`, `ClientPayloadError`). -/
inductive ReqOutcome where
  | resp (r : HttpResp)
  | transportErr (msg : String)

/-- Trace events of `_request_json`: an HTTP request on candidate path `path`
during the 1-indexed `attempt`, or `await asyncio.sleep(self._backoff(attempt))`
(`backoff(attempt) = 1.2 * 2^(attempt-1) + uniform(0, 0.4)` seconds). -/
inductive Ev where
  | req (attempt : Nat) (path : Nat)
  | sleep (attempt : Nat)
deriving DecidableEq, Repr

/-- How one attempt's path loop ended. -/
inductive InnerRes where
  | success (v : Option JsonV)
  | fatal (msg : String)
  | transientFail (msg : String)
  | pathsExhausted

/-- A `SecvestApiError` escaping `_request_json`: raised directly at a
response (auth / conflict / other 4xx / non-JSON body), or the final
`"Request failed after retries"` error wrapping the last transport error. -/
inductive ApiErr where
  | fatal (msg : String)
  | exhausted (lastExc : Option String)

/-- The inner `for path in paths_list` loop of `_request_json` for one
attempt.  `npaths` is `len(paths_list)`, `idxs` the indices of the candidate
paths still to try, `reqIdx` the count of HTTP requests issued so far, which
indexes the `oracle` giving each request's outcome.  A 404 with more than one
configured candidate moves to the next path; 401/403, 409, other 4xx and a
non-JSON body are fatal; 5xx (and, via `raise_for_status`, any other ≥ 500
status) and transport exceptions sleep the backoff and abandon the attempt. -/
def runPaths (npaths : Nat) (expectJson : Bool) (oracle : Nat → ReqOutcome)
    (attempt : Nat) (idxs : List Nat) (reqIdx : Nat) :
    List Ev × Nat × InnerRes :=
  match idxs with
  | [] => ([], reqIdx, .pathsExhausted)
  | i :: rest =>
    match oracle reqIdx with
    | .transportErr msg =>
      ([.req attempt i, .sleep attempt], reqIdx + 1, .transientFail msg)
    | .resp r =>
      if r.status = 404 ∧ 1 < npaths then
        let (evs, reqIdx', res) :=
          runPaths npaths expectJson oracle attempt rest (reqIdx + 1)
        (.req attempt i :: evs, reqIdx', res)
      else if r.status = 401 ∨ r.status = 403 then
        ([.req attempt i], reqIdx + 1,
          .fatal ("Auth failed (" ++ toString r.status ++ ")"))
      else if r.status = 409 then
        ([.req attempt i], reqIdx + 1,
          .fatal ("409 Conflict from Secvest: " ++ pyTake r.bodyText 300))
      else if 400 ≤ r.status ∧ r.status ≤ 499 then
        ([.req attempt i], reqIdx + 1,
          .fatal ("HTTP " ++ toString r.status ++ " from Secvest: "
            ++ pyTake r.bodyText 300))
      else if 500 ≤ r.status then
        ([.req attempt i, .sleep attempt], reqIdx + 1,
          .transientFail ("Server error " ++ toString r.status))
      else if expectJson then
        match r.bodyJson with
        | some j => ([.req attempt i], reqIdx + 1, .success (some j))
        | none =>
          ([.req attempt i], reqIdx + 1,
            .fatal ("Response not JSON (status=" ++ toString r.status ++ ") body="
              ++ pyTake r.bodyText 200))
      else
        ([.req attempt i], reqIdx + 1, .success none)

/-- The outer `for attempt in range(1, self._retries + 1)` loop: `fuel`
attempts remain, `attempt` is the 1-indexed number of the next attempt, and
`lastExc` the `last_exc` accumulator. -/
def runAttempts (npaths : Nat) (expectJson : Bool) (oracle : Nat → ReqOutcome)
    (attempt fuel reqIdx : Nat) (lastExc : Option String) :
    List Ev × Except ApiErr (Option JsonV) :=
  match fuel with
  | 0 => ([], .error (.exhausted lastExc))
  | fuel' + 1 =>
    let (evs, reqIdx', res) :=
      runPaths npaths expectJson oracle attempt (List.range npaths) reqIdx
    match res with
    | .success v => (evs, .ok v)
    | .fatal msg => (evs, .error (.fatal msg))
    | .transientFail msg =>
      let (evs2, r) :=
        runAttempts npaths expectJson oracle (attempt + 1) fuel' reqIdx' (some msg)
      (evs ++ evs2, r)
    | .pathsExhausted =>
      let (evs2, r) :=
        runAttempts npaths expectJson oracle (attempt + 1) fuel' reqIdx' lastExc
      (evs ++ evs2, r)

/-- Embedding of `SecvestApi._request_json` with `retries` attempts over `npaths`
candidate paths. -/
def requestJson (retries npaths : Nat) (expectJson : Bool)
    (oracle : Nat → ReqOutcome) : List Ev × Except ApiErr (Option JsonV) :=
  runAttempts npaths expectJson oracle 1 retries 0 none

/-- The transport-failure classification of a request outcome, with the
message recorded into `last_exc` (some message exactly when the outcome is
retried rather than returned or raised fatally). -/
def transientMsg : ReqOutcome → Option String
  | .transportErr msg => some msg
  | .resp r =>
    if 500 ≤ r.status then some ("Server error " ++ toString r.status) else none

/-! ## Definitions used by the claim statements -/

/-- The spec's reading of `open_zone_names`: "friendly names of zones with
`state == \x22open\x22`, order = zones-mapping iteration order". -/
def openNamesSpec (zones : List (String × ZoneRec)) : List String :=
  ((zones.map Prod.snd).filter (fun z => z.state == "open")).map ZoneRec.friendly_name

/-- Internal consistency of a snapshot: `open_zone_names` is exactly the
open zones' friendly names and the csv/spoken renderings derive from it. -/
def snapshotConsistent (d : SecvestData) : Prop :=
  d.open_zone_names = openNamesSpec d.zones
    ∧ d.open_zones_csv = String.intercalate ", " d.open_zone_names
    ∧ d.open_zones_spoken = makeSpokenZoneList d.open_zone_names

/-- The error, if any, that a scheduled tick's `try` block raises into the
`except` handlers: a `get_mode` failure, or — when the zones sub-poll is due
this tick — a `get_zones` failure. -/
def tickFailure (st : CoordState) (modeResult : Except PollErr String)
    (zonesResult : Except PollErr (List JsonV)) : Option PollErr :=
  match modeResult with
  | .error e => some e
  | .ok _ =>
    if st.zonesInterval ≤ st.zonesTick + st.scanInterval then
      match zonesResult with
      | .error e => some e
      | .ok _ => none
    else none

/-- Effective breaker bounds claimed by the spec. -/
def breakerBounds (st : CoordState) : Prop :=
  1 ≤ st.breakerThreshold ∧ 10 ≤ st.breakerCooldown

/-- A raw zone entry that `build_zones_dict` accepts: a dict whose `name`
and `state` are both strings. -/
def isValidRawZone (z : JsonV) : Bool :=
  match z with
  | .obj fields =>
    (getStr (jsonLookup fields "name")).isSome
      && (getStr (jsonLookup fields "state")).isSome
  | _ => false

/-- The raw `name`/`state` fields of an enriched zone record, as a raw
payload entry (for the idempotence claim). -/
def toRawZone (p : String × ZoneRec) : JsonV :=
  .obj [("name", .str p.2.name), ("state", .str p.2.state)]

/-- The record of the last valid entry of `payload` whose name normalizes
to `k` (for the last-write-wins claim). -/
def lastMatching (payload : List JsonV) (zoneNameMap : List (String × String))
    (k : String) : Option ZoneRec :=
  (((payload.filterMap (validEntry zoneNameMap)).filter
    (fun p => p.1 == k)).getLast?).map Prod.snd

/-! ## Concrete inputs used by counterexamples and witnesses -/

/-- A raw zone payload entry for an open door. -/
def zoneTuerOpen : JsonV := .obj [("name", .str "Tür"), ("state", .str "open")]

/-- A raw zone payload entry for a closed window. -/
def zoneFensterClosed : JsonV := .obj [("name", .str "Fenster"), ("state", .str "closed")]

/-- A raw zone payload entry with an empty-string name. -/
def emptyNameZone : JsonV := .obj [("name", .str ""), ("state", .str "closed")]

/-- A snapshot whose zones contain one open zone. -/
def snapOpen : SecvestData :=
  composeData (some "unset") (some "Unscharf") (buildZonesDict [zoneTuerOpen] []) true none

/-- A freshly constructed coordinator that has published `snapOpen`. -/
def stOpen : CoordState :=
  { initCoordinator 30 120 5 300 [] with data := some snapOpen }

/-- A snapshot published by the very first forced zone refresh (no prior
data: no mode yet). -/
def snapNoMode : SecvestData :=
  composeData none none (buildZonesDict [zoneFensterClosed] []) true none

/-- The coordinator state after that first forced refresh. -/
def stNoMode : CoordState :=
  { initCoordinator 30 120 5 300 [] with data := some snapNoMode }

/-- Is a trace event an HTTP request? -/
def isReqEv : Ev → Bool
  | .req _ _ => true
  | .sleep _ => false

/-- Is a trace event a backoff sleep? -/
def isSleepEv : Ev → Bool
  | .sleep _ => true
  | .req _ _ => false

/-- An HTTP layer that refuses every request at the transport level. -/
def oracleAllDown : Nat → ReqOutcome := fun _ => .transportErr "ConnectionReset"

/-- A 404 response with an empty body. -/
def resp404 : HttpResp := { status := 404, bodyJson := none, bodyText := "" }

/-- An HTTP layer whose first candidate path is missing (404) and whose
second answers with an empty JSON list. -/
def oracle404First : Nat → ReqOutcome := fun n =>
  if n = 0 then .resp resp404
  else .resp { status := 200, bodyJson := some (.arr []), bodyText := "[]" }

/-! # Helper lemmas -/

theorem filterMap_open_eq (l : List ZoneRec) :
    l.filterMap (fun z => if z.state = "open" then some z.friendly_name else none)
      = (l.filter (fun z => z.state == "open")).map ZoneRec.friendly_name := by
  induction l with
  | nil => rfl
  | cons a t ih =>
    by_cases h : a.state = "open" <;>
      simp [List.filterMap_cons, List.filter_cons, h, ih]

theorem openZoneNamesOf_eq_spec (zones : List (String × ZoneRec)) :
    openZoneNamesOf zones = openNamesSpec zones :=
  filterMap_open_eq (zones.map Prod.snd)

theorem composeData_consistent (rm hm : Option String)
    (zones : List (String × ZoneRec)) (av : Bool) (le : Option String) :
    snapshotConsistent (composeData rm hm zones av le) :=
  ⟨openZoneNamesOf_eq_spec zones, rfl, rfl⟩

theorem updateData_ok_composed (st : CoordState) (now : Nat)
    (modeR : Except PollErr String) (zonesR : Except PollErr (List JsonV))
    (d : SecvestData) (hd : (updateData st now modeR zonesR).result = .ok d) :
    ∃ rm hm z av le, d = composeData rm hm z av le := by
  simp only [updateData, degradedTick, healthyTick] at hd
  split at hd
  · split at hd <;>
      first
        | exact ⟨_, _, _, _, _, (Except.ok.inj hd).symm⟩
        | exact absurd hd (by simp)
  · split at hd
    · split at hd <;>
        first
          | exact ⟨_, _, _, _, _, (Except.ok.inj hd).symm⟩
          | exact absurd hd (by simp)
    · split at hd
      · split at hd
        · split at hd <;>
            first
              | exact ⟨_, _, _, _, _, (Except.ok.inj hd).symm⟩
              | exact absurd hd (by simp)
        · exact ⟨_, _, _, _, _, (Except.ok.inj hd).symm⟩
      · exact ⟨_, _, _, _, _, (Except.ok.inj hd).symm⟩

theorem refresh_ok_composed (st : CoordState) (zonesR : Except PollErr (List JsonV))
    (st1 : CoordState) (d : SecvestData)
    (hd : (refreshZonesNow st zonesR).result = .ok (st1, d)) :
    ∃ rm hm z av le, d = composeData rm hm z av le := by
  simp only [refreshZonesNow] at hd
  split at hd
  · exact absurd hd (by simp)
  · split at hd <;>
      exact ⟨_, _, _, _, _, (Prod.mk.inj (Except.ok.inj hd)).2.symm⟩

/-! # Claim theorems -/

/-- C6: every snapshot returned by a scheduled tick or published by a forced
zone refresh is internally consistent: `open_zone_names` is exactly the
friendly names of the zones whose state is `"open"`, in zones-mapping
iteration order, and `open_zones_csv` / `open_zones_spoken` are derived from
that same list.  It is recomputed on every snapshot construction because
every construction goes through `_compose_data`. -/
theorem published_snapshots_consistent (st : CoordState) (now : Nat)
    (modeR : Except PollErr String) (zonesR zonesRf : Except PollErr (List JsonV)) :
    (∀ d, (updateData st now modeR zonesR).result = .ok d → snapshotConsistent d)
    ∧ (∀ st1 d, (refreshZonesNow st zonesRf).result = .ok (st1, d) →
        snapshotConsistent d) := by
  constructor
  · intro d hd
    obtain ⟨rm, hm, z, av, le, rfl⟩ := updateData_ok_composed st now modeR zonesR d hd
    exact composeData_consistent rm hm z av le
  · intro st1 d hd
    obtain ⟨rm, hm, z, av, le, rfl⟩ := refresh_ok_composed st zonesRf st1 d hd
    exact composeData_consistent rm hm z av le

/-- C6 witness: a concrete tick whose returned snapshot, and a concrete
forced refresh whose published snapshot, satisfy the consistency invariant. -/
theorem published_snapshots_consistent_witness :
    snapshotConsistent snapOpen ∧ snapshotConsistent snapNoMode := by
  constructor
  · exact (published_snapshots_consistent stOpen 0 (.ok "unset") (.ok [])
      (.ok [zoneTuerOpen])).1 snapOpen (by decide)
  · exact (published_snapshots_consistent (initCoordinator 30 120 5 300 []) 0
      (.ok "unset") (.ok []) (.ok [zoneFensterClosed])).2 stNoMode snapNoMode (by decide)

/-- C7: a forced zone refresh bypasses the breaker entirely — it issues the
live `get_zones()` call whatever the breaker state, and on success it clears
the failure counter and breaker timestamp, marks the snapshot available, and
publishes it immediately. -/
theorem refresh_bypasses_breaker (st : CoordState)
    (zonesR : Except PollErr (List JsonV)) :
    (refreshZonesNow st zonesR).calls = [.getZones]
    ∧ ∀ payload, zonesR = .ok payload →
        ∃ st1 snap, (refreshZonesNow st zonesR).result = .ok (st1, snap)
          ∧ st1.consecutiveFailures = 0 ∧ st1.breakerUntil = 0
          ∧ st1.lastError = none ∧ snap.available = true
          ∧ st1.data = some snap := by
  constructor
  · unfold refreshZonesNow
    cases zonesR <;> rfl
  · rintro payload rfl
    cases hd : st.data with
    | none =>
      let snap := composeData none none (buildZonesDict payload st.zoneNameMap) true none
      refine ⟨{ st with
                lastError := none
                consecutiveFailures := 0
                breakerUntil := 0
                data := some snap }, snap, ?_, rfl, rfl, rfl, rfl, rfl⟩
      simp [refreshZonesNow, hd, snap]
    | some d0 =>
      let snap := composeData d0.raw_mode d0.human_mode
        (buildZonesDict payload st.zoneNameMap) true d0.last_error
      refine ⟨{ st with
                lastError := none
                consecutiveFailures := 0
                breakerUntil := 0
                data := some snap }, snap, ?_, rfl, rfl, rfl, rfl, rfl⟩
      simp [refreshZonesNow, hd, snap]

/-- C7 witness: a coordinator whose breaker is open far into the future
(`breakerUntil = 1000`) still refreshes live and clears its breaker state. -/
theorem refresh_bypasses_breaker_witness :
    (refreshZonesNow { stOpen with breakerUntil := 1000, consecutiveFailures := 7 }
        (.ok [zoneFensterClosed])).calls = [.getZones]
    ∧ ∃ st1 snap,
        (refreshZonesNow { stOpen with breakerUntil := 1000, consecutiveFailures := 7 }
          (.ok [zoneFensterClosed])).result = .ok (st1, snap)
        ∧ st1.consecutiveFailures = 0 ∧ st1.breakerUntil = 0
        ∧ st1.lastError = none ∧ snap.available = true
        ∧ st1.data = some snap := by
  have h := refresh_bypasses_breaker
    { stOpen with breakerUntil := 1000, consecutiveFailures := 7 }
    (.ok [zoneFensterClosed])
  exact ⟨h.1, h.2 [zoneFensterClosed] rfl⟩

theorem updateData_preserves_breaker_config (st : CoordState) (now : Nat)
    (modeR : Except PollErr String) (zonesR : Except PollErr (List JsonV)) :
    (updateData st now modeR zonesR).state.breakerThreshold = st.breakerThreshold
    ∧ (updateData st now modeR zonesR).state.breakerCooldown = st.breakerCooldown := by
  simp only [updateData, degradedTick, healthyTick]
  split
  · split <;> exact ⟨rfl, rfl⟩
  · split
    · split <;> exact ⟨rfl, rfl⟩
    · split
      · split
        · split <;> exact ⟨rfl, rfl⟩
        · exact ⟨rfl, rfl⟩
      · exact ⟨rfl, rfl⟩

theorem refresh_preserves_breaker_config (st : CoordState)
    (zonesR : Except PollErr (List JsonV)) (st1 : CoordState) (d : SecvestData)
    (h : (refreshZonesNow st zonesR).result = .ok (st1, d)) :
    st1.breakerThreshold = st.breakerThreshold
    ∧ st1.breakerCooldown = st.breakerCooldown := by
  simp only [refreshZonesNow] at h
  split at h
  · exact absurd h (by simp)
  · split at h <;>
      · have h1 := (Prod.mk.inj (Except.ok.inj h)).1
        subst h1
        exact ⟨rfl, rfl⟩

theorem handleSetMode_preserves_breaker_config (st : CoordState) (mode : String)
    (zonesR : Except PollErr (List JsonV)) (setR : Except PollErr Unit) :
    (handleSetMode st mode zonesR setR).state.breakerThreshold = st.breakerThreshold
    ∧ (handleSetMode st mode zonesR setR).state.breakerCooldown = st.breakerCooldown := by
  cases zonesR with
  | error e =>
    simp only [handleSetMode, refreshZonesNow]
    split <;> exact ⟨rfl, rfl⟩
  | ok payload =>
    simp only [handleSetMode, refreshZonesNow]
    split
    · split
      · exact ⟨rfl, rfl⟩
      · split <;> exact ⟨rfl, rfl⟩
    · exact ⟨rfl, rfl⟩

/-- C10: the effective breaker threshold is at least 1 and the effective
breaker cooldown at least 10 seconds: the bounds are established at
construction (whatever the configured values, here any integers) and are
preserved by every coordinator operation (scheduled tick, forced zone
refresh, set-mode command). -/
theorem breaker_bounds_invariant :
    (∀ si zi bt bc m, breakerBounds (initCoordinator si zi bt bc m))
    ∧ (∀ st now modeR zonesR, breakerBounds st →
        breakerBounds (updateData st now modeR zonesR).state)
    ∧ (∀ st zonesR st1 d, breakerBounds st →
        (refreshZonesNow st zonesR).result = .ok (st1, d) → breakerBounds st1)
    ∧ (∀ st mode zonesR setR, breakerBounds st →
        breakerBounds (handleSetMode st mode zonesR setR).state) := by
  refine ⟨?_, ?_, ?_, ?_⟩
  · intro si zi bt bc m
    constructor <;> simp only [initCoordinator] <;> omega
  · intro st now modeR zonesR h
    have hc := updateData_preserves_breaker_config st now modeR zonesR
    exact ⟨hc.1 ▸ h.1, hc.2 ▸ h.2⟩
  · intro st zonesR st1 d h hok
    have hc := refresh_preserves_breaker_config st zonesR st1 d hok
    exact ⟨hc.1 ▸ h.1, hc.2 ▸ h.2⟩
  · intro st mode zonesR setR h
    have hc := handleSetMode_preserves_breaker_config st mode zonesR setR
    exact ⟨hc.1 ▸ h.1, hc.2 ▸ h.2⟩

/-- C10 witness: a construction with out-of-range configured values
(threshold 0, cooldown −5) still satisfies the bounds, and a concrete failing
tick preserves them. -/
theorem breaker_bounds_invariant_witness :
    breakerBounds (initCoordinator 30 120 0 (-5) [])
    ∧ breakerBounds (updateData stOpen 0 (.error .timeout) (.ok [])).state := by
  refine ⟨breaker_bounds_invariant.1 30 120 0 (-5) [],
    breaker_bounds_invariant.2.1 stOpen 0 (.error .timeout) (.ok []) ⟨?_, ?_⟩⟩
  · decide
  · decide

theorem updateData_failure_eq (st : CoordState) (now : Nat)
    (modeR : Except PollErr String) (zonesR : Except PollErr (List JsonV))
    (e : PollErr) (hb : ¬ now < st.breakerUntil)
    (he : tickFailure st modeR zonesR = some e) :
    ∃ zt calls, updateData st now modeR zonesR = degradedTick st now zt calls e := by
  unfold updateData
  rw [if_neg hb]
  cases modeR with
  | error e1 =>
    have h : e1 = e := by
      unfold tickFailure at he
      exact Option.some.inj he
    subst h
    exact ⟨_, _, rfl⟩
  | ok rawMode =>
    unfold tickFailure at he
    dsimp only at he
    split at he
    · cases zonesR with
      | error e1 =>
        have h : e1 = e := Option.some.inj he
        subst h
        exact ⟨0, [.getMode, .getZones], by
          dsimp only
          rw [if_pos ‹st.zonesInterval ≤ st.zonesTick + st.scanInterval›]⟩
      | ok _ => exact absurd he (by simp)
    · exact absurd he (by simp)

theorem degradedTick_result_none (st : CoordState) (now zt : Nat)
    (calls : List NetCall) (e : PollErr) (h : st.data = none) :
    (degradedTick st now zt calls e).result =
      .error (pyOrStr (some (pollErrRepr e)) "Update failed") := by
  simp only [degradedTick]
  split <;> simp_all

theorem degradedTick_result_some (st : CoordState) (now zt : Nat)
    (calls : List NetCall) (e : PollErr) (d0 : SecvestData)
    (h : st.data = some d0) :
    (degradedTick st now zt calls e).result =
      .ok (composeData d0.raw_mode d0.human_mode d0.zones false
        (some (pollErrRepr e))) := by
  simp only [degradedTick]
  split <;> simp_all

/-- C2: when a scheduled tick fails with a timeout or API error (from
`get_mode`, or from `get_zones` when the zones sub-poll is due), the error is
absorbed if a prior snapshot exists — a degraded snapshot is returned that
reuses the last-known mode and zones with `available = false` and the error
text — and an update-failed condition is raised outward only when no prior
snapshot exists. -/
theorem scheduled_failure_degrades (st : CoordState) (now : Nat)
    (modeR : Except PollErr String) (zonesR : Except PollErr (List JsonV))
    (e : PollErr) (hb : ¬ now < st.breakerUntil)
    (he : tickFailure st modeR zonesR = some e)
    (_hkind : e = .timeout ∨ ∃ m, e = .apiError m) :
    (∀ d0, st.data = some d0 →
      (updateData st now modeR zonesR).result =
        .ok (composeData d0.raw_mode d0.human_mode d0.zones false
          (some (pollErrRepr e))))
    ∧ (st.data = none →
        ∃ msg, (updateData st now modeR zonesR).result = .error msg) := by
  obtain ⟨zt, calls, hEq⟩ := updateData_failure_eq st now modeR zonesR e hb he
  constructor
  · intro d0 hd0
    rw [hEq]
    exact degradedTick_result_some st now zt calls e d0 hd0
  · intro hn
    rw [hEq]
    exact ⟨_, degradedTick_result_none st now zt calls e hn⟩

/-- C2 witness: a concrete timed-out tick with a prior snapshot degrades it;
the same failure on a coordinator with no snapshot raises. -/
theorem scheduled_failure_degrades_witness :
    (updateData stOpen 5 (.error .timeout) (.ok [])).result =
      .ok (composeData snapOpen.raw_mode snapOpen.human_mode snapOpen.zones false
        (some (pollErrRepr .timeout)))
    ∧ ∃ msg, (updateData (initCoordinator 30 120 5 300 []) 5
        (.error .timeout) (.ok [])).result = .error msg := by
  constructor
  · exact (scheduled_failure_degrades stOpen 5 (.error .timeout) (.ok []) .timeout
      (by decide) (by decide) (Or.inl rfl)).1 snapOpen rfl
  · exact (scheduled_failure_degrades (initCoordinator 30 120 5 300 []) 5
      (.error .timeout) (.ok []) .timeout (by decide) (by decide) (Or.inl rfl)).2 rfl

/-- C3: (a) on a failing tick that brings the failure counter up to the
breaker threshold, the breaker opens until `now + cooldown`; (b) on every
tick whose current time is before the breaker-open-until timestamp, the
coordinator makes no network call and republishes the last-known snapshot
with `available = false`, raising an update-failed condition instead if no
snapshot exists yet. -/
theorem breaker_opens_and_short_circuits (st : CoordState) (now : Nat)
    (modeR : Except PollErr String) (zonesR : Except PollErr (List JsonV)) :
    ((¬ now < st.breakerUntil) → ∀ e, tickFailure st modeR zonesR = some e →
        st.breakerThreshold ≤ st.consecutiveFailures + 1 →
        (updateData st now modeR zonesR).state.breakerUntil =
          now + st.breakerCooldown)
    ∧ (now < st.breakerUntil →
        (updateData st now modeR zonesR).calls = []
        ∧ (∀ d0, st.data = some d0 →
            (updateData st now modeR zonesR).result =
              .ok (composeData d0.raw_mode d0.human_mode d0.zones false
                (some (pyOrStr st.lastError "Circuit breaker active"))))
        ∧ (st.data = none →
            (updateData st now modeR zonesR).result =
              .error "Circuit breaker active")) := by
  constructor
  · intro hb e he hth
    obtain ⟨zt, calls, hEq⟩ := updateData_failure_eq st now modeR zonesR e hb he
    rw [hEq]
    simp only [degradedTick]
    split <;> simp [if_pos hth]
  · intro hb
    refine ⟨?_, ?_, ?_⟩
    · simp only [updateData, if_pos hb]
      split <;> rfl
    · intro d0 hd0
      simp [updateData, if_pos hb, hd0]
    · intro hn
      simp [updateData, if_pos hb, hn]

/-- C3 witness: with threshold 5 and 4 prior failures, a fifth failing tick
at time 1000 opens the breaker until 1300; a tick at time 50 with the breaker
open until 100 makes no call and republishes unavailable. -/
theorem breaker_opens_and_short_circuits_witness :
    (updateData { stOpen with consecutiveFailures := 4 } 1000
        (.error .timeout) (.ok [])).state.breakerUntil = 1000 + 300
    ∧ ((updateData { stOpen with breakerUntil := 100 } 50
          (.ok "unset") (.ok [])).calls = []
        ∧ (updateData { stOpen with breakerUntil := 100 } 50
            (.ok "unset") (.ok [])).result =
          .ok (composeData snapOpen.raw_mode snapOpen.human_mode snapOpen.zones
            false (some (pyOrStr stOpen.lastError "Circuit breaker active")))) := by
  refine ⟨?_, ?_, ?_⟩
  · exact (breaker_opens_and_short_circuits { stOpen with consecutiveFailures := 4 }
      1000 (.error .timeout) (.ok [])).1 (by decide) .timeout (by decide) (by decide)
  · exact ((breaker_opens_and_short_circuits { stOpen with breakerUntil := 100 }
      50 (.ok "unset") (.ok [])).2 (by decide)).1
  · exact ((breaker_opens_and_short_circuits { stOpen with breakerUntil := 100 }
      50 (.ok "unset") (.ok [])).2 (by decide)).2.1 snapOpen rfl

/-- C1 counterexample: with the current snapshot's `open_zone_names`
non-empty (and the panel still reporting the zone open), the `set` command
does raise a user-facing error, but it is false that no Device Client call is
made — `handle_set_mode` first forces a live zone refresh, so `get_zones` is
issued before the open-zone check. -/
theorem setMode_open_zones_cex :
    stOpen.data = some snapOpen
    ∧ snapOpen.open_zone_names ≠ []
    ∧ (handleSetMode stOpen "set" (.ok [zoneTuerOpen]) (.ok ())).result =
        .error (.haError
          "Ich konnte die Alarmanlage nicht aktivieren, bitte schließe: Tuer.")
    ∧ (handleSetMode stOpen "set" (.ok [zoneTuerOpen]) (.ok ())).calls ≠ [] := by
  refine ⟨rfl, ?_, ?_, ?_⟩ <;> decide

/-- C1 amended: when the set-mode command is invoked with mode `"set"` or
`"partset"` and the forced zone refresh leaves `open_zone_names` non-empty,
the command raises a user-facing error and issues no `set_mode` call to the
panel; the one Device Client call made is the `get_zones` of the forced
refresh that precedes the check. -/
theorem setMode_open_zones_blocks (st : CoordState) (mode : String)
    (payload : List JsonV) (setR : Except PollErr Unit)
    (hm : mode = "set" ∨ mode = "partset")
    (hopen : openZoneNamesOf (buildZonesDict payload st.zoneNameMap) ≠ []) :
    (∃ msg, (handleSetMode st mode (.ok payload) setR).result =
        .error (.haError msg))
    ∧ (handleSetMode st mode (.ok payload) setR).calls = [.getZones] := by
  have hne : (openZoneNamesOf (buildZonesDict payload st.zoneNameMap)).isEmpty
      = false := by
    cases h : openZoneNamesOf (buildZonesDict payload st.zoneNameMap) with
    | nil => exact absurd h hopen
    | cons a l => rfl
  have hvalid : VALID_MODES.contains mode = true := by
    rcases hm with rfl | rfl <;> decide
  have hcond : (mode == "set" || mode == "partset") = true := by
    rcases hm with rfl | rfl <;> decide
  cases hD : st.data with
  | none =>
    simp only [handleSetMode, refreshZonesNow, hvalid, if_true, hD, composeData,
      hcond, Bool.true_and, hne, Bool.not_false, if_pos]
    exact ⟨⟨_, rfl⟩, trivial⟩
  | some d0 =>
    simp only [handleSetMode, refreshZonesNow, hvalid, if_true, hD, composeData,
      hcond, Bool.true_and, hne, Bool.not_false, if_pos]
    exact ⟨⟨_, rfl⟩, trivial⟩

/-- C1 witness: a fresh coordinator, mode `"set"`, a payload with one open
zone. -/
theorem setMode_open_zones_blocks_witness :
    (∃ msg, (handleSetMode (initCoordinator 30 120 5 300 []) "set"
        (.ok [zoneTuerOpen]) (.ok ())).result = .error (.haError msg))
    ∧ (handleSetMode (initCoordinator 30 120 5 300 []) "set"
        (.ok [zoneTuerOpen]) (.ok ())).calls = [.getZones] :=
  setMode_open_zones_blocks (initCoordinator 30 120 5 300 []) "set"
    [zoneTuerOpen] (.ok ()) (Or.inl rfl) (by decide)

theorem runPaths_transient (npaths : Nat) (ej : Bool) (oracle : Nat → ReqOutcome)
    (a i : Nat) (rest : List Nat) (ri : Nat) (msg : String)
    (h : transientMsg (oracle ri) = some msg) :
    runPaths npaths ej oracle a (i :: rest) ri =
      ([.req a i, .sleep a], ri + 1, .transientFail msg) := by
  unfold runPaths
  cases ho : oracle ri with
  | transportErr m =>
    unfold transientMsg at h
    rw [ho] at h
    cases h
    rfl
  | resp r =>
    unfold transientMsg at h
    rw [ho] at h
    dsimp only at h
    dsimp only
    have h5 : 500 ≤ r.status := by
      by_contra hlt
      rw [if_neg hlt] at h
      exact Option.noConfusion h
    have hmsg : msg = "Server error " ++ toString r.status := by
      rw [if_pos h5] at h
      exact (Option.some.inj h).symm
    subst hmsg
    rw [if_neg (by omega : ¬(r.status = 404 ∧ 1 < npaths)),
      if_neg (by omega : ¬(r.status = 401 ∨ r.status = 403)),
      if_neg (by omega : ¬r.status = 409),
      if_neg (by omega : ¬(400 ≤ r.status ∧ r.status ≤ 499)),
      if_pos h5]

theorem runAttempts_all_transient (npaths : Nat) (ej : Bool)
    (oracle : Nat → ReqOutcome) (hp : 0 < npaths)
    (ht : ∀ n, (transientMsg (oracle n)).isSome) :
    ∀ fuel a ri le, runAttempts npaths ej oracle a fuel ri le =
      ((List.range' a fuel).flatMap (fun k => [.req k 0, .sleep k]),
       .error (.exhausted
         (if fuel = 0 then le else transientMsg (oracle (ri + fuel - 1))))) := by
  cases npaths with
  | zero => exact absurd hp (by omega)
  | succ m =>
    intro fuel
    induction fuel with
    | zero => intro a ri le; rfl
    | succ n ih =>
      intro a ri le
      obtain ⟨msg, hmsg⟩ := Option.isSome_iff_exists.mp (ht ri)
      have hrp := runPaths_transient (m + 1) ej oracle a 0
        ((List.range m).map Nat.succ) ri msg hmsg
      unfold runAttempts
      rw [List.range_succ_eq_map, hrp]
      dsimp only
      rw [ih (a + 1) (ri + 1) (some msg)]
      cases n with
      | zero =>
        simp only [List.range', List.flatMap_cons, List.flatMap_nil,
          List.append_nil, Nat.add_sub_cancel]
        simp [hmsg]
      | succ k =>
        simp only [List.range', List.flatMap_cons, List.append_assoc,
          List.cons_append, List.nil_append]
        have h1 : ri + 1 + (k + 1) - 1 = ri + (k + 1 + 1) - 1 := by omega
        rw [h1]
        simp

/-- C4: when every request fails at the transport level (timeout, connection
error, payload error, or a ≥ 500 status on every try), `_request_json` makes
exactly `retries` attempts in total — the trace is `retries` request/sleep
pairs on the first candidate path, one backoff sleep after each failed
attempt — and then raises an `ApiError` wrapping the last transport error. -/
theorem request_exhausts_retries (retries npaths : Nat) (ej : Bool)
    (oracle : Nat → ReqOutcome) (hp : 0 < npaths) (hr : 0 < retries)
    (ht : ∀ n, (transientMsg (oracle n)).isSome) :
    (requestJson retries npaths ej oracle).1 =
      (List.range' 1 retries).flatMap (fun k => [.req k 0, .sleep k])
    ∧ ((requestJson retries npaths ej oracle).1.countP isReqEv) = retries
    ∧ ((requestJson retries npaths ej oracle).1.countP isSleepEv) = retries
    ∧ (requestJson retries npaths ej oracle).2 =
        .error (.exhausted (transientMsg (oracle (retries - 1)))) := by
  have hmain := runAttempts_all_transient npaths ej oracle hp ht retries 1 0 none
  have hcountReq : ∀ n a, (((List.range' a n).flatMap
      (fun k => [Ev.req k 0, Ev.sleep k])).countP isReqEv) = n := by
    intro n
    induction n with
    | zero => intro a; rfl
    | succ q ih =>
      intro a
      simp only [List.range', List.flatMap_cons, List.countP_append, ih (a + 1)]
      simp [List.countP_cons, isReqEv]
      omega
  have hcountSleep : ∀ n a, (((List.range' a n).flatMap
      (fun k => [Ev.req k 0, Ev.sleep k])).countP isSleepEv) = n := by
    intro n
    induction n with
    | zero => intro a; rfl
    | succ q ih =>
      intro a
      simp only [List.range', List.flatMap_cons, List.countP_append, ih (a + 1)]
      simp [List.countP_cons, isSleepEv]
      omega
  unfold requestJson
  rw [hmain, if_neg (by omega : ¬retries = 0)]
  refine ⟨rfl, hcountReq retries 1, hcountSleep retries 1, by rw [Nat.zero_add]⟩

/-- C4 witness: with every request refused at the transport level, 4 retries
over the 2 candidate paths of the real client give 4 request/sleep pairs and
the final wrapped `ApiError`. -/
theorem request_exhausts_retries_witness :
    (requestJson 4 2 true oracleAllDown).1 =
      (List.range' 1 4).flatMap (fun k => [.req k 0, .sleep k])
    ∧ ((requestJson 4 2 true oracleAllDown).1.countP isReqEv) = 4
    ∧ ((requestJson 4 2 true oracleAllDown).1.countP isSleepEv) = 4
    ∧ (requestJson 4 2 true oracleAllDown).2 =
        .error (.exhausted (transientMsg (oracleAllDown 3))) :=
  request_exhausts_retries 4 2 true oracleAllDown (by decide) (by decide)
    (fun n => rfl)

theorem runPaths_first_event (npaths : Nat) (ej : Bool) (oracle : Nat → ReqOutcome)
    (a k : Nat) (rest : List Nat) (ri : Nat) :
    (runPaths npaths ej oracle a (k :: rest) ri).1.head? = some (.req a k) := by
  unfold runPaths
  cases oracle ri with
  | transportErr m => rfl
  | resp r =>
    dsimp only
    by_cases h404 : r.status = 404 ∧ 1 < npaths
    · rw [if_pos h404]
      rcases hrp : runPaths npaths ej oracle a rest (ri + 1) with ⟨evs, ri', res⟩
      simp [hrp]
    · rw [if_neg h404]
      repeat' split
      all_goals rfl

/-- C5: a 404 on a candidate path, with more than one candidate configured
and a next path remaining, makes the client immediately try the next path
within the same attempt `a`: the trace continues with the request on the next
path, no backoff sleep is recorded in between, and the attempt counter is
unchanged (no retry slot consumed). -/
theorem http404_next_path_same_attempt (npaths : Nat) (ej : Bool)
    (oracle : Nat → ReqOutcome) (a i j : Nat) (rest : List Nat) (ri : Nat)
    (r : HttpResp) (h404 : oracle ri = .resp r) (hs : r.status = 404)
    (hnp : 1 < npaths) :
    ∃ evs ri' res,
      runPaths npaths ej oracle a (j :: rest) (ri + 1) = (evs, ri', res)
      ∧ runPaths npaths ej oracle a (i :: j :: rest) ri = (.req a i :: evs, ri', res)
      ∧ evs.head? = some (.req a j) := by
  rcases hrp : runPaths npaths ej oracle a (j :: rest) (ri + 1) with ⟨evs, ri', res⟩
  refine ⟨evs, ri', res, rfl, ?_, ?_⟩
  · unfold runPaths
    rw [h404]
    dsimp only
    rw [if_pos ⟨hs, hnp⟩, hrp]
  · have hh := runPaths_first_event npaths ej oracle a j rest (ri + 1)
    rw [hrp] at hh
    exact hh

/-- C5 witness: 404 on the first of the two candidate paths, success on the
second, within attempt 1. -/
theorem http404_next_path_same_attempt_witness :
    ∃ evs ri' res,
      runPaths 2 true oracle404First 1 [1] 1 = (evs, ri', res)
      ∧ runPaths 2 true oracle404First 1 [0, 1] 0 = (.req 1 0 :: evs, ri', res)
      ∧ evs.head? = some (.req 1 1) :=
  http404_next_path_same_attempt 2 true oracle404First 1 0 1 [] 0 resp404
    rfl rfl (by decide)

theorem buildZonesStep_invalid (m : List (String × String))
    (acc : List (String × ZoneRec)) (z : JsonV)
    (h : isValidRawZone z = false) : buildZonesStep m acc z = acc := by
  unfold buildZonesStep validEntry
  unfold isValidRawZone at h
  cases z <;> try rfl
  case obj fields =>
    cases hn : getStr (jsonLookup fields "name") <;>
      cases hs : getStr (jsonLookup fields "state") <;>
      simp_all

theorem validEntry_key (m : List (String × String)) (z : JsonV) (k : String)
    (rec : ZoneRec) (h : validEntry m z = some (k, rec)) :
    normalizeName rec.name = k := by
  unfold validEntry at h
  cases z <;> simp_all
  case obj fields =>
    cases hn : getStr (jsonLookup fields "name") <;>
      cases hs : getStr (jsonLookup fields "state") <;>
      simp_all
    obtain ⟨hk, hrec⟩ := h
    rw [← hrec, ← hk]

theorem keys_replace (d : List (String × ZoneRec)) (k : String) (v : ZoneRec) :
    (d.map (fun p => if p.1 = k then (k, v) else p)).map Prod.fst
      = d.map Prod.fst := by
  induction d with
  | nil => rfl
  | cons p t ih => by_cases h : p.1 = k <;> simp [h, ih]

theorem any_key_iff (d : List (String × ZoneRec)) (k : String) :
    d.any (fun p => p.1 = k) = true ↔ k ∈ d.map Prod.fst := by
  simp only [List.any_eq_true, List.mem_map, decide_eq_true_eq]

theorem dictInsert_keys_nodup (d : List (String × ZoneRec)) (k : String)
    (v : ZoneRec) (h : (d.map Prod.fst).Nodup) :
    ((dictInsert d k v).map Prod.fst).Nodup := by
  unfold dictInsert
  by_cases hm : d.any (fun p => p.1 = k) = true
  · rw [if_pos hm, keys_replace]
    exact h
  · rw [if_neg hm, List.map_append]
    have hk : k ∉ d.map Prod.fst := fun hc => hm ((any_key_iff d k).mpr hc)
    simp [List.nodup_append, h, hk]

theorem dictInsert_mem (d : List (String × ZoneRec)) (k : String) (v : ZoneRec)
    (P : String × ZoneRec → Prop) (hd : ∀ p ∈ d, P p) (hv : P (k, v)) :
    ∀ p ∈ dictInsert d k v, P p := by
  unfold dictInsert
  by_cases hm : d.any (fun p => p.1 = k) = true
  · rw [if_pos hm]
    intro p hp
    obtain ⟨q, hq, rfl⟩ := List.mem_map.mp hp
    by_cases h : q.1 = k
    · simpa [h] using hv
    · simpa [h] using hd q hq
  · rw [if_neg hm]
    intro p hp
    rcases List.mem_append.mp hp with h | h
    · exact hd p h
    · rw [List.mem_singleton.mp h]
      exact hv

theorem buildZones_key_inv (payload : List JsonV) (m : List (String × String)) :
    ∀ p ∈ buildZonesDict payload m, normalizeName p.2.name = p.1 := by
  unfold buildZonesDict
  suffices h : ∀ acc, (∀ p ∈ acc, normalizeName p.2.name = p.1) →
      ∀ p ∈ payload.foldl (buildZonesStep m) acc,
        normalizeName p.2.name = p.1 from h [] (by simp)
  induction payload with
  | nil => intro acc hacc; simpa using hacc
  | cons z t ih =>
    intro acc hacc
    simp only [List.foldl_cons]
    apply ih
    unfold buildZonesStep
    cases hv : validEntry m z with
    | none => exact hacc
    | some kr =>
      obtain ⟨k, rec⟩ := kr
      exact dictInsert_mem acc k rec _ hacc (validEntry_key m z k rec hv)

theorem buildZones_keys_nodup (payload : List JsonV) (m : List (String × String)) :
    ((buildZonesDict payload m).map Prod.fst).Nodup := by
  unfold buildZonesDict
  suffices h : ∀ acc : List (String × ZoneRec), (acc.map Prod.fst).Nodup →
      ((payload.foldl (buildZonesStep m) acc).map Prod.fst).Nodup from
    h [] (by simp)
  induction payload with
  | nil => intro acc hacc; simpa using hacc
  | cons z t ih =>
    intro acc hacc
    simp only [List.foldl_cons]
    apply ih
    unfold buildZonesStep
    cases hv : validEntry m z with
    | none => exact hacc
    | some kr =>
      obtain ⟨k, rec⟩ := kr
      exact dictInsert_keys_nodup acc k rec hacc

theorem buildZones_filter_eq (payload : List JsonV) (m : List (String × String)) :
    buildZonesDict payload m = buildZonesDict (payload.filter isValidRawZone) m := by
  unfold buildZonesDict
  suffices h : ∀ acc, payload.foldl (buildZonesStep m) acc
      = (payload.filter isValidRawZone).foldl (buildZonesStep m) acc from h []
  induction payload with
  | nil => intro acc; rfl
  | cons z t ih =>
    intro acc
    cases hz : isValidRawZone z with
    | true => simp [List.foldl_cons, List.filter_cons, hz, ih]
    | false =>
      simp [List.foldl_cons, List.filter_cons, hz, ih,
        buildZonesStep_invalid m acc z hz]

theorem rebuild_keys (m2 : List (String × String)) :
    ∀ (d acc : List (String × ZoneRec)),
      (d.map Prod.fst).Nodup →
      (∀ p ∈ d, normalizeName p.2.name = p.1) →
      (∀ k ∈ d.map Prod.fst, k ∉ acc.map Prod.fst) →
      ((d.map toRawZone).foldl (buildZonesStep m2) acc).map Prod.fst
        = acc.map Prod.fst ++ d.map Prod.fst := by
  intro d
  induction d with
  | nil => intro acc _ _ _; simp
  | cons p t ih =>
    intro acc hnd hinv hfresh
    obtain ⟨k, rec⟩ := p
    have hkey : normalizeName rec.name = k := hinv (k, rec) (by simp)
    have hstep : buildZonesStep m2 acc (toRawZone (k, rec)) =
        dictInsert acc k
          { name := rec.name
            friendly_name := resolveFriendly m2 k rec.name
            state := rec.state } := by
      unfold buildZonesStep validEntry toRawZone
      simp [jsonLookup, getStr, hkey]
    have hk : k ∉ acc.map Prod.fst := hfresh k (by simp)
    have hany : ¬acc.any (fun q => q.1 = k) = true :=
      fun hc => hk ((any_key_iff acc k).mp hc)
    simp only [List.map_cons, List.foldl_cons, hstep]
    unfold dictInsert
    rw [if_neg hany]
    rw [ih (acc ++ [(k, _)]) (by
        have := hnd
        simp only [List.map_cons, List.nodup_cons] at this
        exact this.2)
      (fun q hq => hinv q (List.mem_cons_of_mem _ hq))
      (by
        intro k' hk'
        have hne : k' ≠ k := by
          have := hnd
          simp only [List.map_cons, List.nodup_cons] at this
          intro he
          exact this.1 (he ▸ hk')
        have hnotacc : k' ∉ acc.map Prod.fst :=
          hfresh k' (by simp [hk'])
        simp [List.map_append, hnotacc, hne])]
    simp

theorem buildZones_idem_keys (payload : List JsonV)
    (m m2 : List (String × String)) :
    (buildZonesDict ((buildZonesDict payload m).map toRawZone) m2).map Prod.fst
      = (buildZonesDict payload m).map Prod.fst := by
  have h := rebuild_keys m2 (buildZonesDict payload m) []
    (buildZones_keys_nodup payload m) (buildZones_key_inv payload m) (by simp)
  simpa [buildZonesDict] using h

/-- C8 counterexample: the claim says an entry whose name is empty is
dropped, but `build_zones_dict` only checks `isinstance(name, str)`: an
empty-string name passes and the zone is kept under the empty key. -/
theorem buildZones_keeps_empty_name :
    isValidRawZone emptyNameZone = true
    ∧ buildZonesDict [emptyNameZone] []
        = [("", { name := "", friendly_name := "", state := "closed" })]
    ∧ buildZonesDict [emptyNameZone] [] ≠ [] := by
  refine ⟨by decide, by decide, by decide⟩

/-- C8 amended: `build_zones_dict` drops exactly the entries that are not
dicts or whose `name` or `state` is missing or not a string (an empty-string
name is NOT dropped — the zone is kept under the empty key), and it is
idempotent on keys: rebuilding from the raw `name`/`state` fields of its own
enriched output yields the same keys. -/
theorem buildZones_drops_and_idempotent :
    (∀ payload m, buildZonesDict payload m
        = buildZonesDict (payload.filter isValidRawZone) m)
    ∧ (∀ payload m m2,
        (buildZonesDict ((buildZonesDict payload m).map toRawZone) m2).map
            Prod.fst
          = (buildZonesDict payload m).map Prod.fst) :=
  ⟨buildZones_filter_eq, buildZones_idem_keys⟩

theorem lookup_cons_eq (pk : String) (pv : ZoneRec)
    (t : List (String × ZoneRec)) (k' : String) :
    ((pk, pv) :: t).lookup k' = if k' = pk then some pv else t.lookup k' := by
  by_cases h : k' = pk
  · subst h
    simp [List.lookup]
  · simp only [List.lookup]
    rw [beq_eq_false_iff_ne.mpr h, if_neg h]

theorem lookup_append_fresh (d : List (String × ZoneRec)) (k k' : String)
    (v : ZoneRec) (hk : k ∉ d.map Prod.fst) :
    (d ++ [(k, v)]).lookup k' = if k' = k then some v else d.lookup k' := by
  induction d with
  | nil => simp only [List.nil_append, lookup_cons_eq]
  | cons p t ih =>
    obtain ⟨pk, pv⟩ := p
    simp only [List.map_cons, List.mem_cons, not_or] at hk
    obtain ⟨hk1, hk2⟩ := hk
    simp only [List.cons_append, lookup_cons_eq, ih hk2]
    by_cases h1 : k' = pk <;> by_cases h2 : k' = k
    · exact absurd (h2 ▸ h1) hk1
    · simp [h1, h2, hk1, Ne.symm hk1]
    · simp [h1, h2, hk1, Ne.symm hk1]
    · simp [h1, h2, hk1, Ne.symm hk1]

theorem lookup_replace_ne (t : List (String × ZoneRec)) (k k' : String)
    (v : ZoneRec) (h : k' ≠ k) :
    (t.map (fun p => if p.1 = k then (k, v) else p)).lookup k' = t.lookup k' := by
  induction t with
  | nil => rfl
  | cons p t ih =>
    obtain ⟨pk, pv⟩ := p
    simp only [List.map_cons]
    by_cases hpk : pk = k
    · subst hpk
      rw [show (if (pk, pv).1 = pk then (pk, v) else (pk, pv)) = (pk, v) from
        by simp]
      rw [lookup_cons_eq, lookup_cons_eq, if_neg h, if_neg h, ih]
    · rw [show (if (pk, pv).1 = k then (k, v) else (pk, pv)) = (pk, pv) from
        by simp [hpk]]
      rw [lookup_cons_eq, lookup_cons_eq, ih]

theorem lookup_replace (d : List (String × ZoneRec)) (k k' : String)
    (v : ZoneRec) (hm : k ∈ d.map Prod.fst) :
    (d.map (fun p => if p.1 = k then (k, v) else p)).lookup k' =
      if k' = k then some v else d.lookup k' := by
  by_cases h : k' = k
  · subst h
    rw [if_pos rfl]
    induction d with
    | nil => simp at hm
    | cons p t ih =>
      obtain ⟨pk, pv⟩ := p
      simp only [List.map_cons]
      by_cases hpk : pk = k'
      · subst hpk
        rw [show (if (pk, pv).1 = pk then (pk, v) else (pk, pv)) = (pk, v) from
          by simp]
        rw [lookup_cons_eq, if_pos rfl]
      · have hmem : k' ∈ t.map Prod.fst := by
          simp only [List.map_cons, List.mem_cons] at hm
          rcases hm with hm | hm
          · exact absurd hm.symm hpk
          · exact hm
        rw [show (if (pk, pv).1 = k' then (k', v) else (pk, pv)) = (pk, pv) from
          by simp [hpk]]
        rw [lookup_cons_eq, if_neg (fun he => hpk he.symm), ih hmem]
  · rw [if_neg h]
    exact lookup_replace_ne d k k' v h

theorem lookup_dictInsert (d : List (String × ZoneRec)) (k k' : String)
    (v : ZoneRec) :
    (dictInsert d k v).lookup k' = if k' = k then some v else d.lookup k' := by
  unfold dictInsert
  by_cases hm : d.any (fun p => p.1 = k) = true
  · rw [if_pos hm]
    exact lookup_replace d k k' v ((any_key_iff d k).mp hm)
  · rw [if_neg hm]
    exact lookup_append_fresh d k k' v (fun hc => hm ((any_key_iff d k).mpr hc))

theorem lookup_buildZones_aux (m : List (String × String)) (k : String) :
    ∀ (payload : List JsonV) (acc : List (String × ZoneRec)),
      (payload.foldl (buildZonesStep m) acc).lookup k =
        match lastMatching payload m k with
        | some rec => some rec
        | none => acc.lookup k := by
  intro payload
  induction payload with
  | nil => intro acc; rfl
  | cons z t ih =>
    intro acc
    simp only [List.foldl_cons]
    rw [ih]
    cases hv : validEntry m z with
    | none =>
      unfold buildZonesStep
      rw [hv]
      unfold lastMatching
      simp only [List.filterMap_cons, hv]
    | some kr =>
      obtain ⟨kz, rec⟩ := kr
      unfold buildZonesStep
      rw [hv]
      dsimp only
      unfold lastMatching
      simp only [List.filterMap_cons, hv]
      by_cases hk : kz = k
      · subst hk
        simp only [List.filter_cons, beq_self_eq_true, if_pos]
        cases hcase : (t.filterMap (validEntry m)).filter
            (fun p => p.1 == kz) with
        | nil => simp [lookup_dictInsert]
        | cons b l' =>
          rw [List.getLast?_cons_cons]
          cases hbl : (b :: l').getLast? with
          | none => exact absurd (List.getLast?_eq_none_iff.mp hbl) (by simp)
          | some p => simp
      · have hbeq : ((kz, rec).1 == k) = false := by simp [hk]
        simp only [List.filter_cons, hbeq, Bool.false_eq_true, if_false]
        have hne : ¬k = kz := fun he => hk he.symm
        cases hl : ((t.filterMap (validEntry m)).filter
            (fun p => p.1 == k)).getLast? with
        | none =>
          simp only [Option.map_none']
          rw [lookup_dictInsert, if_neg hne]
        | some p => simp only [Option.map_some']

/-- C9: under key collisions, later entries silently overwrite earlier ones:
for every raw zone list, the record stored by `build_zones_dict` under a key
`k` is exactly the record of the last valid entry in list order whose
normalized name is `k`. -/
theorem buildZones_last_write_wins (payload : List JsonV)
    (m : List (String × String)) (k : String) :
    (buildZonesDict payload m).lookup k = lastMatching payload m k := by
  have h := lookup_buildZones_aux m k payload []
  unfold buildZonesDict
  rw [h]
  cases lastMatching payload m k <;> rfl

end Secvest
